import Mathlib

/-!
Verification of the progress-broadcast backend (`src/backend/main.py`).

The embedding models, directly from the source:
* `ConnectionManager` (registry + fan-out): `connect`, `disconnect`
  (Python `list.remove`, which raises `ValueError` on an absent element,
  modelled as `Option.none`), and `broadcast` (a plain `for` loop over the
  live list with no exception handling: a failed `send_text` propagates).
* `DownloadManager` and its `hook` progress callback, producing status
  dictionaries (Python dicts of string keys to `None`-or-string values).
* the poller loop `broadcast_progress` (compare current status against
  `last_status`, broadcast only on change).
* the `/info` endpoint `get_info` (playlist resolution, format filtering by
  `vcodec != 'none'`, simplification, stable sort by descending filesize,
  `HTTPException(400, str(e))` on extraction failure).
* the `/download` endpoint `start_download` (reset status to `starting`,
  schedule the background task, acknowledge).
* a small interleaving semantics for Python list iteration concurrent with
  removal, used for the fan-out/disconnect race.
-/

/-- A value stored in one of the Python status dictionaries: either Python
`None` or a string. -/
inductive PyVal where
  | none
  | str (s : String)
deriving DecidableEq, BEq, Repr

/-- A Python dict with string keys, in insertion order. -/
abbrev Dict := List (String × PyVal)

/-- Python dict equality (`==` / `!=` on dicts): same keys, each mapped to
the same value.  All dicts built by this program have pairwise distinct
keys, on which this coincides with Python's semantics. -/
def dictBeq (a b : Dict) : Bool :=
  a.all (fun kv => b.lookup kv.1 == some kv.2) &&
    b.all (fun kv => a.lookup kv.1 == some kv.2)

/-- The relation "the newly observed status `b` is structurally different
from the last broadcast status `a`" used by the poller's change test. -/
def diffRel (a b : Dict) : Prop := dictBeq b a = false

instance : DecidableRel diffRel := fun a b => by
  unfold diffRel; infer_instance

namespace ConnectionManager

/-- `ConnectionManager.connect`: `self.active_connections.append(websocket)`
(registration order is append order). -/
def connect {α : Type} (conns : List α) (ws : α) : List α :=
  conns ++ [ws]

/-- Python `list.remove(x)`: delete the first occurrence of `x`, or raise
`ValueError` (modelled as `Option.none`) when `x` is absent. -/
def listRemove {α : Type} [DecidableEq α] : List α → α → Option (List α)
  | [], _ => Option.none
  | c :: rest, x =>
    if c = x then some rest else (listRemove rest x).map (fun l => c :: l)

/-- `ConnectionManager.disconnect`: `self.active_connections.remove(websocket)`. -/
def disconnect {α : Type} [DecidableEq α] (conns : List α) (ws : α) :
    Option (List α) :=
  listRemove conns ws

/-- `ConnectionManager.broadcast`: `for connection in self.active_connections:
await connection.send_text(message)`.  `sendOk c` tells whether the send to
connection `c` succeeds.  The loop body has no `try`/`except`, so the first
failing send raises out of the loop: the result is the list of connections
that received the message, paired with `some c` for the connection whose
send raised (the exception propagates to the caller), or `none` when every
send succeeded. -/
def broadcast {α : Type} : List α → (α → Bool) → List α × Option α
  | [], _ => ([], Option.none)
  | c :: rest, sendOk =>
    if sendOk c then
      let r := broadcast rest sendOk
      (c :: r.1, r.2)
    else ([], some c)

end ConnectionManager

namespace DownloadManager

/-- `DownloadManager.__init__`: `self.current_status = {}`. -/
def initStatus : Dict := []

/-- The argument dictionary `d` that `yt_dlp` passes to a progress hook,
restricted to the keys the hook reads.  `Option.none` models an absent key
(the hook reads most of them with a `.get` default). -/
structure HookInput where
  status : String
  percent_str : Option String
  speed_str : Option String
  eta_str : Option String
  filename : Option String

/-- Python `str.strip()`: drop leading and trailing whitespace. -/
def pyStrip (s : String) : String :=
  String.mk
    (((s.data.dropWhile Char.isWhitespace).reverse.dropWhile
      Char.isWhitespace).reverse)

/-- POSIX `os.path.basename`: the part of the path after the last slash. -/
def basename (s : String) : String :=
  String.mk ((s.data.reverse.takeWhile (fun c => c ≠ '/')).reverse)

/-- `DownloadManager.hook`: on `'downloading'` build the five-field progress
dict (note the key `"percent"`, holding `d.get('_percent_str','').strip()`,
which retains any `%` sign); on `'finished'` build the two-field dict; any
other status leaves `current_status` unchanged. -/
def hook (cur : Dict) (d : HookInput) : Dict :=
  if d.status = "downloading" then
    [("status", PyVal.str "downloading"),
     ("percent", PyVal.str (pyStrip (d.percent_str.getD ""))),
     ("speed", PyVal.str (pyStrip (d.speed_str.getD ""))),
     ("eta", PyVal.str (pyStrip (d.eta_str.getD ""))),
     ("filename", PyVal.str (basename (d.filename.getD "")))]
  else if d.status = "finished" then
    [("status", PyVal.str "finished"),
     ("filename", match d.filename with
       | some s => PyVal.str s
       | Option.none => PyVal.none)]
  else cur

end DownloadManager

/-- The poller loop `broadcast_progress`, one entry of the result per cycle
in which a broadcast happened: given `last_status` and the sequence of
values of `download_manager.current_status` observed at successive cycles,
a cycle broadcasts its observed value iff it is structurally different from
`last_status`, and then updates `last_status` to (a copy of) it. -/
def broadcast_progress_obs : Dict → List Dict → List Dict
  | _, [] => []
  | last, cur :: rest =>
    if dictBeq cur last then broadcast_progress_obs last rest
    else cur :: broadcast_progress_obs cur rest

/-- `broadcast_progress` initialises `last_status = {}`. -/
def pollerInitLast : Dict := []

/-- One format dict of the extracted info, restricted to the keys `get_info`
reads.  `format_id` and `ext` are read with `f[...]` (the code assumes them
present); the rest with `f.get(...)`. -/
structure RawFormat where
  format_id : String
  resolution : Option String
  ext : String
  filesize : Option Nat
  format_note : Option String
  vcodec : Option String
deriving DecidableEq, Repr

/-- One entry of the `formats` list returned by `/info`. -/
structure OutFormat where
  format_id : String
  resolution : String
  ext : String
  filesize : Option Nat
  note : Option String
deriving DecidableEq, Repr

/-- Python `x or dflt` on an optional string: `None` and the empty string
are falsy. -/
def pyOr (o : Option String) (dflt : String) : String :=
  match o with
  | some s => if s = "" then dflt else s
  | Option.none => dflt

/-- The dict appended for each kept format:
`{'format_id': f['format_id'], 'resolution': f.get('resolution') or 'audio only',
'ext': f['ext'], 'filesize': f.get('filesize'), 'note': f.get('format_note')}`. -/
def simplifyFormat (f : RawFormat) : OutFormat :=
  { format_id := f.format_id
    resolution := pyOr f.resolution "audio only"
    ext := f.ext
    filesize := f.filesize
    note := f.format_note }

/-- The sort key `lambda x: x.get('filesize') or 0`. -/
def sizeKey (x : OutFormat) : Nat := x.filesize.getD 0

/-- The format pipeline of `get_info`: keep formats with `vcodec != 'none'`,
simplify each, then `formats.sort(key=..., reverse=True)` — a stable sort by
descending `sizeKey`, which `List.mergeSort` with the reversed comparison
reproduces exactly (Python's sort is stable, as is `mergeSort`). -/
def get_info_formats (fs : List RawFormat) : List OutFormat :=
  ((fs.filter (fun f => f.vcodec ≠ some "none")).map simplifyFormat).mergeSort
    (fun a b => decide (sizeKey b ≤ sizeKey a))

/-- The fields of the extracted info dict that `get_info` reads, apart from
the playlist fields. -/
structure InfoBase where
  title : Option String
  thumbnail : Option String
  duration : Option Nat
  formats : List RawFormat

/-- The extracted info dict: `typ` is `info.get('_type')` and `entries` is
`info.get('entries')` (absent modelled as `[]`). -/
structure Info extends InfoBase where
  typ : Option String
  entries : List InfoBase

/-- The playlist fallback: `if info.get('_type') == 'playlist'` and it has a
non-empty `entries` list, continue with the first entry. -/
def resolveEntry (info : Info) : InfoBase :=
  if info.typ = some "playlist" then
    match info.entries with
    | e :: _ => e
    | [] => info.toInfoBase
  else info.toInfoBase

/-- The `/info` response body on success. -/
structure InfoResponse where
  title : Option String
  thumbnail : Option String
  duration : Option Nat
  formats : List OutFormat

/-- `get_info`: the whole body runs under `try`; an exception `e` from the
extraction collaborator is answered with
`HTTPException(status_code=400, detail=str(e))`, modelled as
`Except.error (400, e)`.  On success the response dict is built from the
(playlist-resolved) info. -/
def get_info (extraction : Except String Info) :
    Except (Nat × String) InfoResponse :=
  match extraction with
  | Except.error e => Except.error (400, e)
  | Except.ok info0 =>
    let info := resolveEntry info0
    Except.ok
      { title := info.title
        thumbnail := info.thumbnail
        duration := info.duration
        formats := get_info_formats info.formats }

/-- `{"status": "starting"}`, the dict `start_download` resets the status to. -/
def startingStatus : Dict := [("status", PyVal.str "starting")]

/-- The in-memory state the `/download` endpoint touches: the shared status
slot and the queue of scheduled background download tasks (url, format_id). -/
structure AppState where
  current_status : Dict
  tasks : List (String × String)
deriving DecidableEq, Repr

/-- `start_download`: set `download_manager.current_status` to
`{"status": "starting"}`, schedule `run_download(url, format_id)` as a
background task (not awaited), and return the acknowledgement message. -/
def start_download (st : AppState) (url format_id : String) :
    AppState × String :=
  ({ current_status := startingStatus
     tasks := st.tasks ++ [(url, format_id)] }, "Download started")

/-- An event interleaved with the fan-out loop: `visit` is one iteration
step of `for connection in self.active_connections` (deliver to the element
at the iterator's current index, advance the index; a Python list iterator
raises `StopIteration`, i.e. ends the loop, when the index reaches the live
length), and `remove c` is a concurrent `disconnect` of the registered
connection `c` running during an `await` of the loop body. -/
inductive BEvent (α : Type) where
  | visit
  | remove (c : α)

/-- The state of an in-progress fan-out: the live connection list, the
iterator's index into it, and the connections delivered to so far. -/
structure IterState (α : Type) where
  conns : List α
  idx : Nat
  delivered : List α
deriving DecidableEq, Repr

/-- One interleaving step.  A `remove` of a registered connection edits the
live list in place while the iterator keeps its index (Python list iterators
are index-based and tolerate concurrent removal without raising). -/
def stepEvent {α : Type} [DecidableEq α] (s : IterState α) :
    BEvent α → IterState α
  | BEvent.visit =>
    if h : s.idx < s.conns.length then
      { s with idx := s.idx + 1
               delivered := s.delivered ++ [s.conns.get ⟨s.idx, h⟩] }
    else s
  | BEvent.remove c =>
    { s with conns := (ConnectionManager.listRemove s.conns c).getD s.conns }

/-- Run a sequence of interleaved events. -/
def runEvents {α : Type} [DecidableEq α] (s : IterState α)
    (evs : List (BEvent α)) : IterState α :=
  evs.foldl stepEvent s

/-- A concrete `yt_dlp` progress-hook argument in the `downloading` state. -/
def c6ExampleInput : DownloadManager.HookInput :=
  { status := "downloading"
    percent_str := some "10.0%"
    speed_str := some "1.00MiB/s"
    eta_str := some "00:05"
    filename := some "/tmp/video.mp4" }

/-- Three video formats whose filesizes are 500, 2000 and 100 bytes. -/
def c4ExampleFormats : List RawFormat :=
  [{ format_id := "f1", resolution := some "720p", ext := "mp4",
     filesize := some 500, format_note := Option.none, vcodec := some "avc1" },
   { format_id := "f2", resolution := some "1080p", ext := "mp4",
     filesize := some 2000, format_note := Option.none, vcodec := some "avc1" },
   { format_id := "f3", resolution := some "360p", ext := "mp4",
     filesize := some 100, format_note := Option.none, vcodec := some "avc1" }]

/-! ## Theorems -/

/-- Claim C5: `start_download` resets the status slot to
`{"status": "starting"}`, appends exactly one background task (not awaited),
and returns the acknowledgement immediately; a second call while the first
job's task is still pending is accepted without error and simply overwrites
the status slot to `starting` again. -/
theorem c5_launch_resets_and_schedules (st : AppState) (url fid u2 f2 : String) :
    (start_download st url fid).1.current_status = startingStatus ∧
    (start_download st url fid).1.tasks = st.tasks ++ [(url, fid)] ∧
    (start_download st url fid).2 = "Download started" ∧
    (start_download (start_download st url fid).1 u2 f2).1.current_status
      = startingStatus ∧
    (start_download (start_download st url fid).1 u2 f2).1.tasks
      = st.tasks ++ [(url, fid)] ++ [(u2, f2)] ∧
    (start_download (start_download st url fid).1 u2 f2).2 = "Download started" :=
  ⟨rfl, rfl, rfl, rfl, rfl, rfl⟩

/-- Claim C8: when the extraction collaborator raises, `/info` responds
synchronously with status 400 (a client error: between 400 and 499) whose
detail is exactly the underlying failure message (hence contains it); when
extraction succeeds, the endpoint returns a response and raises no error. -/
theorem c8_info_error_surfaced :
    (∀ msg, get_info (Except.error msg) = Except.error (400, msg)) ∧
    (∀ info, ∃ r, get_info (Except.ok info) = Except.ok r) ∧
    400 ≤ 400 ∧ 400 < 500 :=
  ⟨fun _ => rfl, fun _ => ⟨_, rfl⟩, Nat.le_refl _, by omega⟩

/-- Claim C10 (confirmed): the store's initial value `{}` equals the
poller's initial `last_status = {}`, so before the first write the change
test is false in every cycle and the poller broadcasts nothing. -/
theorem c10_silent_before_first_write (n : Nat) :
    dictBeq DownloadManager.initStatus pollerInitLast = true ∧
    broadcast_progress_obs pollerInitLast
      (List.replicate n DownloadManager.initStatus) = [] := by
  refine ⟨rfl, ?_⟩
  induction n with
  | zero => rfl
  | succ n ih =>
    simpa [List.replicate_succ, broadcast_progress_obs, pollerInitLast,
      DownloadManager.initStatus, dictBeq] using ih

/-- Claim C1 is false on the code: with connections `[0, 1]` registered and
the send to `0` failing, `broadcast` delivers to nobody (in particular not
to the healthy connection `1`), and the failure propagates out of the loop
(`some 0`) instead of being caught and unregistering `0`. -/
theorem c1_counterexample :
    ConnectionManager.broadcast [0, 1] (fun c => c != 0)
      = (([] : List Nat), some 0) ∧
    (1 : Nat) ∉ (ConnectionManager.broadcast [0, 1] (fun c => c != 0)).1 := by
  decide

/-- Claim C1 amended: a delivery failure is not caught — the `for` loop has
no `try`/`except`, so the first failing send raises out of `broadcast`.
Connections before the failing one in registration order have already
received the message, the failing connection is not unregistered (the
registry is untouched), and every connection after it receives nothing. -/
theorem c1_amended_failure_propagates (pre post : List Nat) (c : Nat)
    (sendOk : Nat → Bool) (hpre : ∀ x ∈ pre, sendOk x = true)
    (hc : sendOk c = false) :
    ConnectionManager.broadcast (pre ++ c :: post) sendOk = (pre, some c) := by
  induction pre with
  | nil => simp [ConnectionManager.broadcast, hc]
  | cons a rest ih =>
    have ha : sendOk a = true := hpre a (by simp)
    have hr := ih (fun x hx => hpre x (by simp [hx]))
    simp [ConnectionManager.broadcast, ha, hr]

/-- Witness for `c1_amended_failure_propagates` at `pre = [1]`, `c = 0`,
`post = [2]`. -/
theorem c1_amended_witness :
    (∀ x ∈ ([1] : List Nat), (fun c => c != 0) x = true) ∧
    (fun c => c != 0) 0 = false ∧
    ConnectionManager.broadcast ([1] ++ 0 :: [2]) (fun c => c != 0)
      = ([1], some 0) :=
  ⟨by decide, by decide,
    c1_amended_failure_propagates [1] [2] 0 (fun c => c != 0)
      (by decide) (by decide)⟩

/-- Claim C3 is false on the code: `disconnect` is Python `list.remove`,
which raises `ValueError` when the connection is absent.  Disconnecting
connection `0` from the empty registry is an error (`Option.none`), not the
no-op `some []` the claim predicts. -/
theorem c3_counterexample :
    ConnectionManager.disconnect ([] : List Nat) 0 = Option.none ∧
    ConnectionManager.disconnect ([] : List Nat) 0 ≠ some [] := by
  decide

/-- Claim C3 amended: `disconnect` removes the first occurrence of a
registered connection, but disconnecting a connection that is not currently
registered raises `ValueError` — it is an error, not a no-op, so
`disconnect` is not idempotent. -/
theorem c3_amended_remove_raises_when_absent (conns pre post : List Nat)
    (c : Nat) :
    (ConnectionManager.disconnect conns c = Option.none ↔ c ∉ conns) ∧
    (c ∉ pre →
      ConnectionManager.disconnect (pre ++ c :: post) c = some (pre ++ post)) := by
  constructor
  · induction conns with
    | nil => simp [ConnectionManager.disconnect, ConnectionManager.listRemove]
    | cons a rest ih =>
      by_cases hac : a = c
      · subst hac
        simp [ConnectionManager.disconnect, ConnectionManager.listRemove]
      · simp only [ConnectionManager.disconnect, ConnectionManager.listRemove,
          if_neg hac, Option.map_eq_none', List.mem_cons, not_or]
        constructor
        · intro h
          exact ⟨fun h2 => hac h2.symm, (ih.mp h :)⟩
        · intro h
          exact ih.mpr h.2
  · intro hnp
    induction pre with
    | nil => simp [ConnectionManager.disconnect, ConnectionManager.listRemove]
    | cons a rest ih =>
      have hac : a ≠ c := fun h => hnp (by simp [h])
      have hr := ih (fun h => hnp (by simp [h]))
      simp only [List.cons_append, ConnectionManager.disconnect,
        ConnectionManager.listRemove, if_neg hac] at hr ⊢
      simp [hr]

/-- Witness for `c3_amended_remove_raises_when_absent` at a registry `[1]`
not containing `0` and a removal of `0` from `[] ++ 0 :: [5]`. -/
theorem c3_amended_witness :
    (ConnectionManager.disconnect ([1] : List Nat) 0 = Option.none
      ↔ (0 : Nat) ∉ ([1] : List Nat)) ∧
    ConnectionManager.disconnect (([] : List Nat) ++ 0 :: [5]) 0
      = some ([] ++ [5]) :=
  ⟨(c3_amended_remove_raises_when_absent [1] [] [5] 0).1,
    (c3_amended_remove_raises_when_absent [1] [] [5] 0).2 (by decide)⟩

/-- Claim C6 is false on the code: the downloading-state message produced by
`DownloadManager.hook` has no `percentage` field — the key is `percent`, and
its value is the raw `_percent_str` (whitespace-stripped, retaining the `%`
sign), not a bare numeric string. -/
theorem c6_counterexample :
    (DownloadManager.hook DownloadManager.initStatus c6ExampleInput).lookup
      "percentage" = Option.none ∧
    (DownloadManager.hook DownloadManager.initStatus c6ExampleInput).lookup
      "percent" = some (PyVal.str "10.0%") := by
  decide

/-- Claim C6 amended: every downloading-state message carries exactly the
fields `status`, `percent` (the raw percent string as reported by the
collaborator, whitespace-stripped), `speed`, `eta` and `filename` (the
path's basename), in that order. -/
theorem c6_amended_downloading_fields (cur : Dict)
    (d : DownloadManager.HookInput) (h : d.status = "downloading") :
    (DownloadManager.hook cur d).map Prod.fst
      = ["status", "percent", "speed", "eta", "filename"] := by
  simp [DownloadManager.hook, h]

/-- Witness for `c6_amended_downloading_fields` at `c6ExampleInput`. -/
theorem c6_amended_witness :
    c6ExampleInput.status = "downloading" ∧
    (DownloadManager.hook DownloadManager.initStatus c6ExampleInput).map
      Prod.fst = ["status", "percent", "speed", "eta", "filename"] :=
  ⟨rfl, c6_amended_downloading_fields DownloadManager.initStatus
    c6ExampleInput rfl⟩

/-- Claim C7 is false on the code: with connections `[0, 1]`, after the loop
delivers to `0`, a concurrent disconnect of `0` shifts `1` down to the slot
the iterator has already passed, so the loop ends with `1` never receiving
the message even though `1` was not the connection removed (no error is
raised). -/
theorem c7_counterexample :
    runEvents ⟨[0, 1], 0, []⟩ [BEvent.visit, BEvent.remove 0, BEvent.visit]
      = ⟨[1], 1, [0]⟩ ∧
    (1 : Nat) ∉ (runEvents ⟨[0, 1], 0, []⟩
      [BEvent.visit, BEvent.remove 0, BEvent.visit]).delivered := by
  decide

/-- Running only `visit` events, with enough of them to exhaust the list,
delivers exactly the suffix of the live list from the iterator's index on,
and leaves the live list unchanged. -/
theorem runVisits_spec {α : Type} [DecidableEq α] :
    ∀ (n : Nat) (l : List α) (i : Nat) (d : List α), l.length ≤ i + n →
      runEvents ⟨l, i, d⟩ (List.replicate n BEvent.visit)
        = ⟨l, max i l.length, d ++ l.drop i⟩ := by
  intro n
  induction n with
  | zero =>
    intro l i d h
    simp only [Nat.add_zero] at h
    simp [runEvents, List.drop_eq_nil_of_le h, Nat.max_eq_left h]
  | succ n ih =>
    intro l i d h
    rw [List.replicate_succ]
    show runEvents (stepEvent ⟨l, i, d⟩ BEvent.visit)
      (List.replicate n BEvent.visit) = _
    by_cases hi : i < l.length
    · rw [stepEvent]
      simp only [hi, dite_true]
      rw [ih l (i + 1) _ (by omega)]
      have hmax : max (i + 1) l.length = max i l.length := by omega
      have hdrop : l.drop i = l.get ⟨i, hi⟩ :: l.drop (i + 1) :=
        List.drop_eq_getElem_cons hi
      rw [hmax, hdrop]
      simp
    · rw [stepEvent]
      simp only [hi, dite_false]
      exact ih l i d (by omega)

/-- Claim C7 amended: iteration concurrent with removal never raises, but it
does skip deliveries: when the connection just visited is removed, the list
shifts down while the iterator's index stays, so the next connection in
registration order is skipped.  Concretely, for registry `a :: b :: rest`,
visiting `a`, then removing `a`, then letting the loop run to completion
delivers to `a` and to `rest` but never to `b`, although `b` stays
registered and was not the connection removed. -/
theorem c7_amended_removal_skips_next (a b : Nat) (rest : List Nat)
    (h1 : b ≠ a) (h2 : b ∉ rest) :
    runEvents ⟨a :: b :: rest, 0, []⟩
        ([BEvent.visit, BEvent.remove a]
          ++ List.replicate (rest.length + 1) BEvent.visit)
      = ⟨b :: rest, rest.length + 1, a :: rest⟩ ∧
    b ∉ ([a] ++ rest) := by
  constructor
  · have h1 : runEvents ⟨a :: b :: rest, 0, []⟩ [BEvent.visit, BEvent.remove a]
        = ⟨b :: rest, 1, [a]⟩ := by
      simp [runEvents, stepEvent, ConnectionManager.listRemove]
    have h2 : runEvents (⟨a :: b :: rest, 0, []⟩ : IterState Nat)
        ([BEvent.visit, BEvent.remove a]
          ++ List.replicate (rest.length + 1) BEvent.visit)
        = runEvents ⟨b :: rest, 1, [a]⟩
            (List.replicate (rest.length + 1) BEvent.visit) := by
      rw [runEvents, List.foldl_append, ← runEvents, ← runEvents, h1]
    rw [h2, runVisits_spec (rest.length + 1) (b :: rest) 1 [a] (by simp)]
    simp [Nat.max_eq_right (by omega : 1 ≤ rest.length + 1)]
  · intro hmem
    rcases List.mem_append.mp hmem with h | h
    · exact h1 (List.mem_singleton.mp h)
    · exact h2 h

/-- Witness for `c7_amended_removal_skips_next` at `a = 0`, `b = 1`,
`rest = [2]`. -/
theorem c7_amended_witness :
    (1 : Nat) ≠ 0 ∧ (1 : Nat) ∉ ([2] : List Nat) ∧
    (runEvents ⟨[0, 1, 2], 0, []⟩
        ([BEvent.visit, BEvent.remove 0]
          ++ List.replicate ([2].length + 1) BEvent.visit)
      = ⟨[1, 2], 2, [0, 2]⟩ ∧ (1 : Nat) ∉ ([0] ++ [2] : List Nat)) :=
  ⟨by decide, by decide,
    c7_amended_removal_skips_next 0 1 [2] (by decide) (by decide)⟩

/-- Claim C2 (confirmed): the poller broadcasts exactly the subsequence of
distinct consecutive observed status values — prefixing the initial
`last_status`, the broadcast sequence is precisely `List.destutter'` of the
observed sequence under the change relation; consequently consecutive
broadcast messages are never structurally equal (`Chain' diffRel`) and the
broadcasts form a subsequence of the observed values. -/
theorem c2_broadcasts_destutter_observed (obs : List Dict) (last : Dict) :
    last :: broadcast_progress_obs last obs
      = List.destutter' diffRel last obs ∧
    List.Chain' diffRel (last :: broadcast_progress_obs last obs) ∧
    (broadcast_progress_obs last obs).Sublist obs := by
  have key : ∀ (o : List Dict) (la : Dict),
      la :: broadcast_progress_obs la o = List.destutter' diffRel la o := by
    intro o
    induction o with
    | nil => intro la; simp [broadcast_progress_obs]
    | cons b l ih =>
      intro la
      rw [List.destutter'_cons]
      by_cases h : diffRel la b
      · rw [if_pos h]
        have hb : dictBeq b la = false := h
        rw [show broadcast_progress_obs la (b :: l)
            = b :: broadcast_progress_obs b l from by
          simp [broadcast_progress_obs, hb]]
        rw [← ih b]
      · rw [if_neg h]
        have hb : dictBeq b la = true := by
          revert h; unfold diffRel; cases dictBeq b la <;> simp
        rw [show broadcast_progress_obs la (b :: l)
            = broadcast_progress_obs la l from by
          simp [broadcast_progress_obs, hb]]
        exact ih la
  refine ⟨key obs last, ?_, ?_⟩
  · rw [key obs last]
    apply List.destutter'_is_chain'
  · have hsub : List.Sublist (List.destutter' diffRel last obs)
        (last :: obs) := by
      apply List.destutter'_sublist
    rw [← key obs last] at hsub
    exact List.cons_sublist_cons.mp hsub

/-- The format list `get_info` returns is sorted by descending
`filesize or 0`, because Python's stable `sort(key=..., reverse=True)` is
`mergeSort` under the reversed comparison. -/
theorem get_info_formats_sorted (fs : List RawFormat) :
    List.Pairwise (fun a b => sizeKey b ≤ sizeKey a) (get_info_formats fs) := by
  unfold get_info_formats
  refine List.Pairwise.imp (fun h => of_decide_eq_true h)
    (List.sorted_mergeSort ?_ ?_ _)
  · intro a b c hab hbc
    simp only [decide_eq_true_eq] at hab hbc ⊢
    omega
  · intro a b
    simp only [Bool.or_eq_true, decide_eq_true_eq]
    omega

/-- Claim C4 (confirmed): every `/info` response lists its formats in
descending order of file size (`f.get('filesize') or 0`), and on the input
whose format sizes are `[500, 2000, 100]` the response order is
`[2000, 500, 100]`. -/
theorem c4_formats_sorted_descending :
    (∀ info : Info, ∃ r, get_info (Except.ok info) = Except.ok r ∧
      List.Pairwise (fun a b => sizeKey b ≤ sizeKey a) r.formats) ∧
    (get_info_formats c4ExampleFormats).map sizeKey = [2000, 500, 100] := by
  constructor
  · intro info
    exact ⟨_, rfl, get_info_formats_sorted _⟩
  · simp [get_info_formats, c4ExampleFormats, simplifyFormat, pyOr, sizeKey,
      List.mergeSort, List.splitInTwo, List.splitAt, List.splitAt.go,
      List.merge]

/-- Claim C9 (confirmed): the `/info` response's format list is a
permutation of — hence contains exactly — the simplifications of those
extracted formats whose `vcodec` is not `'none'`; formats with
`vcodec == 'none'` (audio-only) never contribute an entry. -/
theorem c9_formats_filter_vcodec (info : Info) :
    ∃ r, get_info (Except.ok info) = Except.ok r ∧
      r.formats.Perm
        (((resolveEntry info).formats.filter
          (fun f => f.vcodec ≠ some "none")).map simplifyFormat) ∧
      ∀ x, x ∈ r.formats ↔ ∃ f, f ∈ (resolveEntry info).formats ∧
        f.vcodec ≠ some "none" ∧ simplifyFormat f = x := by
  refine ⟨_, rfl, List.mergeSort_perm _ _, fun x => ?_⟩
  simp only [get_info_formats, List.mem_mergeSort, List.mem_map,
    List.mem_filter, decide_eq_true_eq]
  constructor
  · rintro ⟨f, ⟨hf, hv⟩, hx⟩
    exact ⟨f, hf, hv, hx⟩
  · rintro ⟨f, hf, hv, hx⟩
    exact ⟨f, ⟨hf, hv⟩, hx⟩
